import Mathlib

/-!
Shallow embedding of the core of the Akkurate grammar/style assistant
(Rust sources under `src/`): the response extractor `extract_json`
(`src/api/gemini.rs`), the grammar-check prompt builder
(`GeminiClient::check_grammar`), the response-envelope handling of
`check_grammar` / `enhance_text`, the preset manager
(`src/core/presets.rs`), and the UI state machine `App::update`
(`src/ui/app.rs`), together with proofs settling the specification's
claims about them.
-/

namespace Akkurate

/-! ## Rust string primitives, on `List Char`

Rust's `str::trim` removes Unicode `White_Space` characters from both
ends; `trim_start_matches(p)` / `trim_end_matches(p)` repeatedly remove
the pattern `p` from the corresponding end.  We model strings as
`List Char` and mirror those exact semantics. -/

/-- Unicode `White_Space` property, as used by Rust's `char::is_whitespace`. -/
def isRustWhitespace (c : Char) : Bool :=
  (0x9 ≤ c.toNat && c.toNat ≤ 0xD) || c.toNat = 0x20 || c.toNat = 0x85 ||
  c.toNat = 0xA0 || c.toNat = 0x1680 ||
  (0x2000 ≤ c.toNat && c.toNat ≤ 0x200A) ||
  c.toNat = 0x2028 || c.toNat = 0x2029 || c.toNat = 0x202F ||
  c.toNat = 0x205F || c.toNat = 0x3000

/-- Rust `str::trim_start`: drop leading whitespace. -/
def trimStartL (l : List Char) : List Char := l.dropWhile isRustWhitespace

/-- Rust `str::trim_end`: drop trailing whitespace. -/
def trimEndL (l : List Char) : List Char :=
  (l.reverse.dropWhile isRustWhitespace).reverse

/-- Rust `str::trim`: drop whitespace at both ends. -/
def trimL (l : List Char) : List Char := trimEndL (trimStartL l)

/-- Rust `str::starts_with(pat)` for a string pattern. -/
def startsWithL (pat l : List Char) : Bool := pat.isPrefixOf l

/-- Fuelled worker for `trim_start_matches`: while the pattern is a
(nonempty) prefix, drop it and repeat. The fuel `l.length` always
suffices because each step removes at least one character. -/
def trimStartMatchesAux : Nat → List Char → List Char → List Char
  | 0, _, l => l
  | Nat.succ n, pat, l =>
    if pat ≠ [] ∧ pat.isPrefixOf l then
      trimStartMatchesAux n pat (l.drop pat.length)
    else l

/-- Rust `str::trim_start_matches(pat)`: repeatedly remove the pattern from
the front. -/
def trimStartMatches (pat l : List Char) : List Char :=
  trimStartMatchesAux l.length pat l

/-- Rust `str::trim_end_matches(pat)`: repeatedly remove the pattern from the
back (modelled by reversal). -/
def trimEndMatches (pat l : List Char) : List Char :=
  (trimStartMatches pat.reverse l.reverse).reverse

/-- The bare code-fence marker. -/
def fenceBare : List Char := "```".toList

/-- The `json`-tagged code-fence marker. -/
def fenceJson : List Char := "```json".toList

/-- Embeds `GeminiClient::extract_json` (src/api/gemini.rs, lines 239-254):
trim; if the text starts with a ```` ```json ```` fence, strip that
opening marker and the trailing ```` ``` ```` marker and trim again;
else if it starts with a bare ```` ``` ```` fence, strip symmetrically;
else return the trimmed text. -/
def extractJsonL (l : List Char) : List Char :=
  let t := trimL l
  if startsWithL fenceJson t then
    trimL (trimEndMatches fenceBare (trimStartMatches fenceJson t))
  else if startsWithL fenceBare t then
    trimL (trimEndMatches fenceBare (trimStartMatches fenceBare t))
  else t

/-- Wrapper running `extract_json` on `String`s. -/
def extractJson (s : String) : String := (extractJsonL s.toList).asString

/-! ## Prompt builder (`GeminiClient::check_grammar`, src/api/gemini.rs 94-123)

The Rust code builds the check prompt with a single `format!` template
whose holes are filled `lang, lang, lang, lang, lang, lang, text`.  We
embed the template as its seven literal segments (`\x7b`/`\x7d` denote
the literal braces of the JSON schema example, `\x27` the apostrophe). -/

def checkTpl1 : String :=
  "Please act as a professional grammar checker. Check the following text for grammar, spelling, and punctuation errors.\nThe user\x27s interface language is "

def checkTpl2 : String := ". Assessment and explanations MUST BE in "

def checkTpl3 : String :=
  ".\n\nFor each issue found:\n1.  Identify the original text.\n2.  Provide the corrected text.\n3.  Explain why it is an error (concise explanation in "

def checkTpl4 : String := ").\n4.  Cite the grammar rule involved (in "

def checkTpl5 : String :=
  ").\n\nReturn the result in strict JSON format matching this structure:\n\x7b\n  \"issues\": [\n    \x7b\n      \"original\": \"substring with error\",\n      \"corrected\": \"corrected substring\",\n      \"explanation\": \"explanation in "

def checkTpl6 : String := "\",\n      \"rule\": \"grammar rule in "

def checkTpl7 : String :=
  "\"\n    \x7d\n  ],\n  \"corrected_text\": \"the full text with all corrections applied\"\n\x7d\n\nIf there are no errors, return an empty \"issues\" list.\n\nText to check:\n"

/-- The grammar-check prompt of `GeminiClient::check_grammar`: the
template segments interleaved with `lang` (six times) and ending with
the verbatim input `text`. -/
def buildCheckPrompt (text lang : List Char) : List Char :=
  checkTpl1.toList ++ lang ++ checkTpl2.toList ++ lang ++
  checkTpl3.toList ++ lang ++ checkTpl4.toList ++ lang ++
  checkTpl5.toList ++ lang ++ checkTpl6.toList ++ lang ++
  checkTpl7.toList ++ text

/-! ## Typed results (src/api/gemini.rs 15-38) -/

/-- A grammar issue found in the text (`GrammarIssue`). -/
structure GrammarIssue where
  original : String
  corrected : String
  explanation : String
  rule : String
deriving DecidableEq

/-- Result of grammar checking (`CheckResult`). -/
structure CheckResult where
  issues : List GrammarIssue
  corrected_text : String
  summary : Option String
deriving DecidableEq

/-- Result of text enhancement (`EnhanceResult`). -/
structure EnhanceResult where
  enhanced_text : String
  changes_made : List String
deriving DecidableEq

/-! ## Response envelope (src/api/gemini.rs 64-82, 135-151, 193-207) -/

/-- One content part of a candidate (`CandidatePart`). -/
structure CandidatePart where
  text : String
deriving DecidableEq

/-- The content of a candidate (`CandidateContent`). -/
structure CandidateContent where
  parts : List CandidatePart
deriving DecidableEq

/-- One response candidate (`Candidate`). -/
structure Candidate where
  content : CandidateContent
deriving DecidableEq

/-- The decoded response envelope (`GeminiResponse`). -/
structure GeminiResponse where
  candidates : List Candidate
deriving DecidableEq

/-- The candidate-navigation step shared by `check_grammar` and
`enhance_text`:
`response.candidates.first().context("No candidates returned")?
  .content.parts.first().context("No parts returned")?.text`. -/
def firstCandidateText (r : GeminiResponse) : Except String String :=
  match r.candidates with
  | [] => Except.error "No candidates returned"
  | c :: _ =>
    match c.content.parts with
    | [] => Except.error "No parts returned"
    | p :: _ => Except.ok p.text

/-- The post-transport phase of `check_grammar` on a decoded envelope:
navigate to the first candidate's first part, run `extract_json`, then
decode.  The `serde_json::from_str` decode is an external library call
and is passed in as a function. -/
def handleCheckResponse (decode : String → Except String CheckResult)
    (r : GeminiResponse) : Except String CheckResult :=
  match firstCandidateText r with
  | Except.error e => Except.error e
  | Except.ok t => decode (extractJson t)

/-- The post-transport phase of `enhance_text`, identical in structure
to `handleCheckResponse`. -/
def handleEnhanceResponse (decode : String → Except String EnhanceResult)
    (r : GeminiResponse) : Except String EnhanceResult :=
  match firstCandidateText r with
  | Except.error e => Except.error e
  | Except.ok t => decode (extractJson t)

/-! ## Style presets (src/core/presets.rs) -/

/-- A style preset for text enhancement (`StylePreset`). -/
structure StylePreset where
  name : String
  tone : String
  formality : String
  instructions : String
deriving DecidableEq

/-- Association-list model of the preset `HashMap`; `lookupPreset` is
`HashMap::get` by key.  Keys are unique in every map we build, so the
association-list and hash-map semantics agree. -/
def lookupPreset (key : String) : List (String × StylePreset) → Option StylePreset
  | [] => none
  | (k, v) :: t => if k = key then some v else lookupPreset key t

/-- The four built-in presets inserted by `PresetManager::new`
(src/core/presets.rs 24-74). -/
def defaultPresets : List (String × StylePreset) :=
  [("casual",
    { name := "Casual", tone := "friendly, conversational",
      formality := "informal",
      instructions := "Use simple words, contractions are okay, keep it natural and relaxed" }),
   ("business",
    { name := "Business", tone := "professional, polite",
      formality := "formal",
      instructions := "Clear and concise, avoid slang, maintain professional courtesy" }),
   ("academic",
    { name := "Academic", tone := "objective, analytical",
      formality := "highly formal",
      instructions := "Use precise terminology, passive voice acceptable, maintain scholarly tone" }),
   ("creative",
    { name := "Creative", tone := "expressive, vivid",
      formality := "flexible",
      instructions := "Encourage creativity, use varied sentence structures, be engaging" })]

/-- Models `HashMap::extend(entries)`: the new entries override existing keys.
With lookup scanning from the head, prepending the (unique-keyed) new
entries realizes exactly that. -/
def extendPresets (m entries : List (String × StylePreset)) :
    List (String × StylePreset) :=
  entries ++ m

/-- The filesystem/TOML outcome `load_custom_presets` reacts to:
the file may be missing, unreadable, unparsable, or parsed into a
key-to-preset mapping. -/
inductive PresetSource where
  | missing
  | readFailure (err : String)
  | parseFailure (err : String)
  | parsed (entries : List (String × StylePreset))

/-- Embeds `PresetManager::load_custom_presets` (src/core/presets.rs 77-93):
a missing file is `Ok(())` with the map untouched; a read or parse
failure returns the error (with its `context` message) leaving the map
untouched; a parsed file extends the map. -/
def loadCustomPresets (m : List (String × StylePreset)) :
    PresetSource → Except String Unit × List (String × StylePreset)
  | PresetSource.missing => (Except.ok (), m)
  | PresetSource.readFailure e =>
      (Except.error ("Failed to read presets file: " ++ e), m)
  | PresetSource.parseFailure e =>
      (Except.error ("Failed to parse presets file: " ++ e), m)
  | PresetSource.parsed entries => (Except.ok (), extendPresets m entries)

/-! ## Localized strings (src/ui/i18n.rs), restricted to the fields the
state machine reads in the embedded message handlers. -/

/-- Supported languages (`Language`). -/
inductive Language where
  | chinese
  | english
deriving DecidableEq

/-- The UI strings read by `App::update` (`Strings`; the Rust field
`error_prefix` is named `errorPrefixLabel` here). -/
structure Strings where
  enterTextCheck : String
  enterTextEnhance : String
  apiNotConfigured : String
  invalidPreset : String
  errorPrefixLabel : String
  noIssues : String
  foundIssues : String
  correctedTextLabel : String
  enhancedTextLabel : String
  changesMadeLabel : String

/-- The `CHINESE` string table (src/ui/i18n.rs). -/
def CHINESE : Strings where
  enterTextCheck := "请输入要检查的文本"
  enterTextEnhance := "请输入要润色的文本"
  apiNotConfigured := "API 密钥未配置，请前往设置"
  invalidPreset := "无效的风格预设"
  errorPrefixLabel := "错误"
  noIssues := "[OK] 没有发现语法问题!"
  foundIssues := "发现 \x7b\x7d 个问题:"
  correctedTextLabel := "修正后的文本:"
  enhancedTextLabel := "润色后的文本:"
  changesMadeLabel := "修改说明:"

/-- The `ENGLISH` string table (src/ui/i18n.rs). -/
def ENGLISH : Strings where
  enterTextCheck := "Please enter some text to check"
  enterTextEnhance := "Please enter some text to enhance"
  apiNotConfigured := "API key not configured. Go to Settings."
  invalidPreset := "Invalid preset selected"
  errorPrefixLabel := "Error"
  noIssues := "[OK] No grammar issues found!"
  foundIssues := "Found \x7b\x7d issue(s):"
  correctedTextLabel := "Corrected text:"
  enhancedTextLabel := "Enhanced text:"
  changesMadeLabel := "Changes made:"

/-- Rust `Language::strings`. -/
def Language.strings : Language → Strings
  | Language.chinese => CHINESE
  | Language.english => ENGLISH

/-- Rust `Language::display_name`. -/
def Language.displayName : Language → String
  | Language.chinese => "中文"
  | Language.english => "English"

/-! ## Application state machine (src/ui/app.rs) -/

/-- The fields of `App` read or written by the embedded handlers of
`App::update`.  `geminiClient` is `Some key` when a client is
configured; `inputContent` models `input_content.text()`. -/
structure App where
  geminiClient : Option String
  presetManager : List (String × StylePreset)
  inputContent : String
  resultText : String
  selectedPreset : String
  isLoading : Bool
  errorMessage : Option String
  language : Language
deriving DecidableEq

/-- An asynchronous task spawned by a dispatch handler
(`Task::perform(client.check_grammar(..))` /
`Task::perform(client.enhance_text(..))`). -/
inductive Dispatched where
  | check (text lang : String)
  | enhance (text : String) (preset : StylePreset) (lang : String)
deriving DecidableEq

/-- The messages of `App::update` embedded here (`Message`):
the two dispatch intents, the two async completions (Rust
`Result<_, String>` as `Except String _`), and `ClearAll`. -/
inductive Message where
  | checkGrammar
  | enhanceText
  | checkComplete (result : Except String CheckResult)
  | enhanceComplete (result : Except String EnhanceResult)
  | clearAll

/-- The check-result rendering of the `Message::CheckComplete` `Ok`
branch (src/ui/app.rs 251-278): a "no issues" line or a "found N
issues" header (the `{}` hole replaced by the issue count) followed by
one numbered block per issue, then a separator and the corrected
text. -/
def formatCheckResult (lang : Language) (r : CheckResult) : String :=
  let s := lang.strings
  let body :=
    if r.issues.isEmpty then s.noIssues ++ "\n\n"
    else
      s.foundIssues.replace "\x7b\x7d" (toString r.issues.length) ++ "\n\n" ++
      String.join (r.issues.enum.map (fun iv =>
        toString (iv.1 + 1) ++ ". \"" ++ iv.2.original ++ "\" -> \"" ++
        iv.2.corrected ++ "\"\n   " ++ iv.2.explanation ++ " (" ++
        iv.2.rule ++ ")\n\n"))
  body ++ "---\n" ++ s.correctedTextLabel ++ "\n\n" ++ r.corrected_text

/-- The enhance-result rendering of the `Message::EnhanceComplete` `Ok`
branch (src/ui/app.rs 290-302). -/
def formatEnhanceResult (lang : Language) (r : EnhanceResult) : String :=
  let s := lang.strings
  s.enhancedTextLabel ++ "\n\n" ++ r.enhanced_text ++ "\n\n---\n" ++
  s.changesMadeLabel ++ "\n\n" ++
  String.join (r.changes_made.map (fun c => "* " ++ c ++ "\n"))

/-- Embeds `App::update` (src/ui/app.rs 179-455) restricted to the five
embedded messages, returning the new state and the spawned task (if
any).  Each arm mirrors the corresponding `match` arm of the source:
the dispatch arms check the client, then blank input (`text.trim()`),
then (for enhance) preset resolution; the completion arms clear
`is_loading` and either store the formatted result or set the
error-prefixed message. -/
def update (a : App) : Message → App × Option Dispatched
  | Message.checkGrammar =>
    match a.geminiClient with
    | some _ =>
      let text := a.inputContent
      if (trimL text.toList).isEmpty then
        ({ a with errorMessage := some a.language.strings.enterTextCheck }, none)
      else
        ({ a with isLoading := true, errorMessage := none },
         some (Dispatched.check text a.language.displayName))
    | none =>
      ({ a with errorMessage := some a.language.strings.apiNotConfigured }, none)
  | Message.enhanceText =>
    match a.geminiClient with
    | some _ =>
      let text := a.inputContent
      if (trimL text.toList).isEmpty then
        ({ a with errorMessage := some a.language.strings.enterTextEnhance }, none)
      else
        match lookupPreset a.selectedPreset a.presetManager with
        | some preset =>
          ({ a with isLoading := true, errorMessage := none },
           some (Dispatched.enhance text preset a.language.displayName))
        | none =>
          ({ a with errorMessage := some a.language.strings.invalidPreset }, none)
    | none =>
      ({ a with errorMessage := some a.language.strings.apiNotConfigured }, none)
  | Message.checkComplete r =>
    match r with
    | Except.ok cr =>
      ({ a with isLoading := false,
                resultText := formatCheckResult a.language cr }, none)
    | Except.error e =>
      ({ a with isLoading := false,
                errorMessage :=
                  some (a.language.strings.errorPrefixLabel ++ ": " ++ e) }, none)
  | Message.enhanceComplete r =>
    match r with
    | Except.ok er =>
      ({ a with isLoading := false,
                resultText := formatEnhanceResult a.language er }, none)
    | Except.error e =>
      ({ a with isLoading := false,
                errorMessage :=
                  some (a.language.strings.errorPrefixLabel ++ ": " ++ e) }, none)
  | Message.clearAll =>
    ({ a with inputContent := "", resultText := "", errorMessage := none }, none)

/-- A configured app state used by concrete counterexample traces and
witnesses: client configured, non-blank input, English UI. -/
def sampleApp : App where
  geminiClient := some "KEY"
  presetManager := defaultPresets
  inputContent := "Hello wrld"
  resultText := ""
  selectedPreset := "casual"
  isLoading := false
  errorMessage := none
  language := Language.english

/-- A concrete successful check result for counterexample traces. -/
def sampleCheckResult : CheckResult where
  issues := []
  corrected_text := "Hello world"
  summary := none

/-! ## Lemmas about trimming -/

theorem dropWhile_idem {α : Type} (p : α → Bool) (l : List α) :
    (l.dropWhile p).dropWhile p = l.dropWhile p := by
  induction l with
  | nil => rfl
  | cons a t ih =>
    by_cases h : p a
    · simp [List.dropWhile_cons, h, ih]
    · simp [List.dropWhile_cons, h]

theorem dropWhile_append_last {α : Type} (p : α → Bool) (a : α)
    (ha : p a = false) (ys : List α) :
    ∃ s, (ys ++ [a]).dropWhile p = s ++ [a] := by
  induction ys with
  | nil => exact ⟨[], by simp [List.dropWhile_cons, ha]⟩
  | cons b t ih =>
    by_cases h : p b
    · obtain ⟨s, hs⟩ := ih
      exact ⟨s, by simp [List.dropWhile_cons, h, hs]⟩
    · exact ⟨b :: t, by simp [List.dropWhile_cons, h]⟩

theorem dropWhile_head_cases {α : Type} (p : α → Bool) (l : List α) :
    l.dropWhile p = [] ∨
      ∃ a t, l.dropWhile p = a :: t ∧ p a = false := by
  induction l with
  | nil => exact Or.inl rfl
  | cons a t ih =>
    by_cases h : p a
    · simpa [List.dropWhile_cons, h] using ih
    · exact Or.inr ⟨a, t, by simp [List.dropWhile_cons, h], by simpa using h⟩

theorem trimEndL_trimEndL (l : List Char) :
    trimEndL (trimEndL l) = trimEndL l := by
  simp [trimEndL, List.reverse_reverse, dropWhile_idem]

theorem trimStartL_trimEndL_trimStartL (l : List Char) :
    trimStartL (trimEndL (trimStartL l)) = trimEndL (trimStartL l) := by
  rcases dropWhile_head_cases isRustWhitespace l with h | ⟨a, t, h, ha⟩
  · simp [trimStartL, trimEndL, h]
  · simp only [trimStartL, trimEndL, h]
    obtain ⟨s, hs⟩ :=
      dropWhile_append_last isRustWhitespace a ha t.reverse
    simp [List.reverse_cons, hs, List.dropWhile_cons, ha]

theorem trimL_trimL (l : List Char) : trimL (trimL l) = trimL l := by
  show trimEndL (trimStartL (trimEndL (trimStartL l))) = trimL l
  rw [trimStartL_trimEndL_trimStartL, trimEndL_trimEndL]
  rfl

theorem extractJsonL_eq_trimL (l : List Char) :
    ∃ y, extractJsonL l = trimL y := by
  simp only [extractJsonL]
  split
  · exact ⟨_, rfl⟩
  · split
    · exact ⟨_, rfl⟩
    · exact ⟨l, rfl⟩

theorem trimL_extractJsonL (l : List Char) :
    trimL (extractJsonL l) = extractJsonL l := by
  obtain ⟨y, hy⟩ := extractJsonL_eq_trimL l
  rw [hy, trimL_trimL]

theorem isPrefixOf_of_append_isPrefixOf (p q l : List Char)
    (h : (p ++ q).isPrefixOf l = true) : p.isPrefixOf l = true := by
  rw [List.isPrefixOf_iff_prefix] at h ⊢
  exact (List.prefix_append p q).trans h

theorem startsWithL_fenceBare_of_fenceJson (l : List Char)
    (h : startsWithL fenceJson l = true) : startsWithL fenceBare l = true := by
  have hsplit : fenceJson = fenceBare ++ "json".toList := by decide
  rw [startsWithL, hsplit] at h
  exact isPrefixOf_of_append_isPrefixOf _ _ _ h

/-- On input whose trimmed form does not start with a fence marker,
`extract_json` is just `trim`. -/
theorem extractJsonL_of_unfenced (l : List Char)
    (hb : startsWithL fenceBare (trimL l) = false) :
    extractJsonL l = trimL l := by
  have hj : startsWithL fenceJson (trimL l) = false := by
    cases hq : startsWithL fenceJson (trimL l) with
    | false => rfl
    | true =>
      rw [startsWithL_fenceBare_of_fenceJson _ hq] at hb
      exact absurd hb (by simp)
  simp [extractJsonL, hj, hb]

/-! ## Lemmas about preset lookup -/

theorem lookupPreset_append_some (key : String)
    (es m : List (String × StylePreset)) (p : StylePreset)
    (h : lookupPreset key es = some p) :
    lookupPreset key (es ++ m) = some p := by
  induction es with
  | nil => simp [lookupPreset] at h
  | cons kv t ih =>
    by_cases hk : kv.1 = key
    · simpa [lookupPreset, hk] using (by simpa [lookupPreset, hk] using h)
    · exact by simpa [lookupPreset, hk] using ih (by simpa [lookupPreset, hk] using h)

theorem lookupPreset_append_none (key : String)
    (es m : List (String × StylePreset))
    (h : lookupPreset key es = none) :
    lookupPreset key (es ++ m) = lookupPreset key m := by
  induction es with
  | nil => rfl
  | cons kv t ih =>
    by_cases hk : kv.1 = key
    · simp [lookupPreset, hk] at h
    · exact by simpa [lookupPreset, hk] using ih (by simpa [lookupPreset, hk] using h)

/-! ## Claims -/

/-- C3, counterexample: `extract_json` is not idempotent.  On
`"``` ```json x"` the first application strips the leading bare fence
and the trailing trim exposes a (previously interior) `json` fence
marker at the head, so a second application strips again:
one pass yields `"```json x"`, a second pass yields `"x"`. -/
theorem extractJson_not_idempotent_cx :
    extractJsonL (extractJsonL ("``` ```json x".toList)) ≠
        extractJsonL ("``` ```json x".toList) ∧
    extractJsonL ("``` ```json x".toList) = "```json x".toList ∧
    extractJsonL (extractJsonL ("``` ```json x".toList)) = "x".toList := by
  decide

/-- C3, amended: `extract_json` is idempotent on every input whose
extracted output does not itself begin with a fence marker: if
`extractJson s` does not start with `"``` "`-style backticks, then
`extractJson (extractJson s) = extractJson s`.  (The claim as stated,
for all `s`, is refuted by `extractJson_not_idempotent_cx`.) -/
theorem extractJson_idem_of_unfenced (l : List Char)
    (h : startsWithL fenceBare (extractJsonL l) = false) :
    extractJsonL (extractJsonL l) = extractJsonL l := by
  have hfix : trimL (extractJsonL l) = extractJsonL l := trimL_extractJsonL l
  have := extractJsonL_of_unfenced (extractJsonL l) (by rwa [hfix])
  rwa [hfix] at this

/-- Witness for `extractJson_idem_of_unfenced` at the concrete input
`"x"`. -/
theorem extractJson_idem_of_unfenced_witness :
    startsWithL fenceBare (extractJsonL ("x".toList)) = false ∧
    extractJsonL (extractJsonL ("x".toList)) = extractJsonL ("x".toList) :=
  ⟨by decide, extractJson_idem_of_unfenced ("x".toList) (by decide)⟩

/-- C5: `extract_json` strips fences as specified on the three
spec examples, and any input whose trimmed form does not start with a
fence marker is returned trimmed but otherwise unchanged. -/
theorem extractJson_fence_examples :
    extractJson "```json\n\x7b\"a\":1\x7d\n```" = "\x7b\"a\":1\x7d" ∧
    extractJson "\x7b\"a\":1\x7d" = "\x7b\"a\":1\x7d" ∧
    extractJson "```\n[]\n```" = "[]" ∧
    ∀ l : List Char, startsWithL fenceBare (trimL l) = false →
      extractJsonL l = trimL l :=
  ⟨by decide, by decide, by decide, fun l h => extractJsonL_of_unfenced l h⟩

/-- Witness for `extractJson_fence_examples` at the concrete unfenced
input `"  hi  "`. -/
theorem extractJson_fence_examples_witness :
    startsWithL fenceBare (trimL ("  hi  ".toList)) = false ∧
    extractJsonL ("  hi  ".toList) = trimL ("  hi  ".toList) :=
  ⟨by decide, extractJson_fence_examples.2.2.2 ("  hi  ".toList) (by decide)⟩

/-- C6: for all inputs, the grammar-check prompt contains the input
text as a verbatim trailing substring, and contains the language at
least four times (the template interleaves it six times). -/
theorem buildCheckPrompt_contains (text lang : List Char) :
    (∃ a, buildCheckPrompt text lang = a ++ text) ∧
    (∃ a b c d e, buildCheckPrompt text lang =
        a ++ lang ++ b ++ lang ++ c ++ lang ++ d ++ lang ++ e) := by
  constructor
  · refine ⟨checkTpl1.toList ++ lang ++ checkTpl2.toList ++ lang ++
      checkTpl3.toList ++ lang ++ checkTpl4.toList ++ lang ++
      checkTpl5.toList ++ lang ++ checkTpl6.toList ++ lang ++
      checkTpl7.toList, ?_⟩
    simp [buildCheckPrompt, List.append_assoc]
  · refine ⟨checkTpl1.toList, checkTpl2.toList, checkTpl3.toList,
      checkTpl4.toList,
      checkTpl5.toList ++ lang ++ checkTpl6.toList ++ lang ++
        checkTpl7.toList ++ text, ?_⟩
    simp [buildCheckPrompt, List.append_assoc]

/-- C7: when the decoded envelope has zero candidates, or the first
candidate has zero content parts, both `check_grammar` and
`enhance_text` return an error value (no crash), for every decoder. -/
theorem emptyEnvelope_error (dc : String → Except String CheckResult)
    (de : String → Except String EnhanceResult) (r : GeminiResponse)
    (h : r.candidates = [] ∨
      ∃ c cs, r.candidates = c :: cs ∧ c.content.parts = []) :
    ∃ m, handleCheckResponse dc r = Except.error m ∧
      handleEnhanceResponse de r = Except.error m := by
  rcases h with h | ⟨c, cs, hc, hp⟩
  · exact ⟨"No candidates returned",
      by simp [handleCheckResponse, firstCandidateText, h],
      by simp [handleEnhanceResponse, firstCandidateText, h]⟩
  · exact ⟨"No parts returned",
      by simp [handleCheckResponse, firstCandidateText, hc, hp],
      by simp [handleEnhanceResponse, firstCandidateText, hc, hp]⟩

/-- Witness for `emptyEnvelope_error` on the envelope with no
candidates. -/
theorem emptyEnvelope_error_witness :
    ∃ m, handleCheckResponse (fun _ => Except.error "bad") ⟨[]⟩ =
        Except.error m ∧
      handleEnhanceResponse (fun _ => Except.error "bad") ⟨[]⟩ =
        Except.error m :=
  emptyEnvelope_error _ _ ⟨[]⟩ (Or.inl rfl)

/-- C8: before any external load, lookup of `"casual"` returns the
built-in Casual preset, whose `instructions` are non-empty; after
loading a parsed external source containing a `"casual"` entry, lookup
returns the overriding external preset; built-in keys the external
source does not mention keep their built-in value. -/
theorem presetManager_casual_override :
    (lookupPreset "casual" defaultPresets =
      some { name := "Casual", tone := "friendly, conversational",
             formality := "informal",
             instructions := "Use simple words, contractions are okay, keep it natural and relaxed" } ∧
     ∀ p, lookupPreset "casual" defaultPresets = some p →
       p.instructions ≠ "") ∧
    (∀ es p, lookupPreset "casual" es = some p →
      lookupPreset "casual"
          (loadCustomPresets defaultPresets (PresetSource.parsed es)).2 =
        some p) ∧
    (∀ es k, lookupPreset k es = none →
      lookupPreset k
          (loadCustomPresets defaultPresets (PresetSource.parsed es)).2 =
        lookupPreset k defaultPresets) := by
  refine ⟨⟨by decide, ?_⟩, ?_, ?_⟩
  · intro p hp
    have : p = { name := "Casual", tone := "friendly, conversational",
                 formality := "informal",
                 instructions := "Use simple words, contractions are okay, keep it natural and relaxed" } := by
      have : lookupPreset "casual" defaultPresets =
          some { name := "Casual", tone := "friendly, conversational",
                 formality := "informal",
                 instructions := "Use simple words, contractions are okay, keep it natural and relaxed" } := by
        decide
      rw [this] at hp
      exact (Option.some_inj.mp hp).symm
    rw [this]
    decide
  · intro es p hp
    exact lookupPreset_append_some "casual" es defaultPresets p hp
  · intro es k hk
    exact lookupPreset_append_none k es defaultPresets hk

/-- Witness for `presetManager_casual_override`: loading an external
source overriding `"casual"` makes lookup return the external preset. -/
theorem presetManager_casual_override_witness :
    lookupPreset "casual"
        (loadCustomPresets defaultPresets (PresetSource.parsed
          [("casual", { name := "Custom", tone := "t", formality := "f",
                        instructions := "i" })])).2 =
      some { name := "Custom", tone := "t", formality := "f",
             instructions := "i" } :=
  presetManager_casual_override.2.1
    [("casual", { name := "Custom", tone := "t", formality := "f",
                  instructions := "i" })]
    { name := "Custom", tone := "t", formality := "f", instructions := "i" }
    rfl

/-- C10: `load_custom_presets` is atomic on failure: a missing file is
success with the map unchanged; a read or parse failure is an error
with the map unchanged (all built-ins remain); entries are merged only
on a fully successful parse. -/
theorem loadCustomPresets_atomic (m : List (String × StylePreset)) :
    loadCustomPresets m PresetSource.missing = (Except.ok (), m) ∧
    (∀ e, ∃ msg,
      loadCustomPresets m (PresetSource.readFailure e) =
        (Except.error msg, m)) ∧
    (∀ e, ∃ msg,
      loadCustomPresets m (PresetSource.parseFailure e) =
        (Except.error msg, m)) ∧
    (∀ es, loadCustomPresets m (PresetSource.parsed es) =
      (Except.ok (), extendPresets m es)) :=
  ⟨rfl, fun e => ⟨"Failed to read presets file: " ++ e, rfl⟩,
   fun e => ⟨"Failed to parse presets file: " ++ e, rfl⟩, fun _ => rfl⟩

/-- C1, counterexample: a successful completion does not clear the
error message.  Trace: dispatch a check (which clears the error and
spawns the task), `ClearAll`, then press Enhance with the now-blank
input (setting the "enter text" error); when the earlier check's
`Success` completion arrives, the handler stores the result and clears
loading but the error message survives. -/
theorem successCompletion_error_survives_cx :
    ((update (update (update (update sampleApp
          Message.checkGrammar).1 Message.clearAll).1
          Message.enhanceText).1
        (Message.checkComplete (Except.ok sampleCheckResult))).1).errorMessage =
      some "Please enter some text to enhance" ∧
    ((update (update (update (update sampleApp
          Message.checkGrammar).1 Message.clearAll).1
          Message.enhanceText).1
        (Message.checkComplete (Except.ok sampleCheckResult))).1).errorMessage ≠
      none ∧
    ((update (update (update (update sampleApp
          Message.checkGrammar).1 Message.clearAll).1
          Message.enhanceText).1
        (Message.checkComplete (Except.ok sampleCheckResult))).1).isLoading =
      false := by
  decide

/-- C1, amended: on a `Success` completion of either kind the handler
clears the loading state (slot back to `Idle`) and stores the formatted
result text, but leaves the error message unchanged — the error is
cleared at dispatch time, not at completion, so it need not be empty
after a successful completion. -/
theorem successCompletion_state (a : App) (cr : CheckResult)
    (er : EnhanceResult) :
    update a (Message.checkComplete (Except.ok cr)) =
      ({ a with isLoading := false,
                resultText := formatCheckResult a.language cr }, none) ∧
    update a (Message.enhanceComplete (Except.ok er)) =
      ({ a with isLoading := false,
                resultText := formatEnhanceResult a.language er }, none) :=
  ⟨rfl, rfl⟩

/-- C2, counterexample: the loading state is one shared flag, not
independent per-kind slots.  After an enhance dispatch (task spawned,
flag set), a check-kind completion clears the flag — i.e. a completion
of one kind resets the loading state that was tracking the other
kind's still-outstanding request. -/
theorem completion_crosses_kind_cx :
    (update sampleApp Message.enhanceText).2 ≠ none ∧
    (update sampleApp Message.enhanceText).1.isLoading = true ∧
    ((update (update sampleApp Message.enhanceText).1
        (Message.checkComplete (Except.ok sampleCheckResult))).1).isLoading =
      false := by
  decide

/-- C2, amended: the app tracks loading in a single shared
`is_loading` flag (and a single shared error field) rather than
independent per-kind slots.  Dispatch of either kind is indeed never
blocked by the flag — the handlers contain no loading guard, so a
pending operation of one kind does not prevent dispatching the other —
but a completion of either kind unconditionally clears the shared
flag, thereby clearing the loading state of the other kind as well. -/
theorem sharedLoading_slots (a : App) (k : String) (p : StylePreset)
    (hc : a.geminiClient = some k)
    (hb : trimL a.inputContent.toList ≠ [])
    (hp : lookupPreset a.selectedPreset a.presetManager = some p)
    (rc : Except String CheckResult) (re : Except String EnhanceResult) :
    ((update a Message.checkGrammar).2 =
        some (Dispatched.check a.inputContent a.language.displayName) ∧
      (update a Message.checkGrammar).1.isLoading = true) ∧
    ((update a Message.enhanceText).2 =
        some (Dispatched.enhance a.inputContent p a.language.displayName) ∧
      (update a Message.enhanceText).1.isLoading = true) ∧
    (update a (Message.checkComplete rc)).1.isLoading = false ∧
    (update a (Message.enhanceComplete re)).1.isLoading = false := by
  have hb' : trimL a.inputContent.data ≠ [] := by simpa [String.toList] using hb
  refine ⟨⟨?_, ?_⟩, ⟨?_, ?_⟩, ?_, ?_⟩
  · simp [update, hc, hb']
  · simp [update, hc, hb']
  · simp [update, hc, hb', hp]
  · simp [update, hc, hb', hp]
  · cases rc <;> simp [update]
  · cases re <;> simp [update]

/-- Witness for `sharedLoading_slots`: with the shared flag already set
(an enhance is pending), a check completion clears it, and dispatch was
not blocked. -/
theorem sharedLoading_slots_witness :
    (update { sampleApp with isLoading := true } Message.enhanceText).2 ≠
        none ∧
    (update { sampleApp with isLoading := true }
        (Message.checkComplete (Except.ok sampleCheckResult))).1.isLoading =
      false := by
  have h := sharedLoading_slots { sampleApp with isLoading := true } "KEY"
    { name := "Casual", tone := "friendly, conversational",
      formality := "informal",
      instructions := "Use simple words, contractions are okay, keep it natural and relaxed" }
    rfl (by decide) (by decide) (Except.ok sampleCheckResult)
    (Except.ok { enhanced_text := "", changes_made := [] })
  exact ⟨by rw [h.2.1.1]; simp, h.2.2.1⟩

/-- C4: a `Failure(msg)` completion of either kind clears the loading
state, sets the error message to exactly the error prefix, a colon and
the message, and leaves the stored result text and the input text
unchanged (both fields are inherited from the previous state). -/
theorem failureCompletion_state (a : App) (e : String) :
    update a (Message.checkComplete (Except.error e)) =
      ({ a with isLoading := false,
                errorMessage := some (a.language.strings.errorPrefixLabel ++
                  ": " ++ e) }, none) ∧
    update a (Message.enhanceComplete (Except.error e)) =
      ({ a with isLoading := false,
                errorMessage := some (a.language.strings.errorPrefixLabel ++
                  ": " ++ e) }, none) :=
  ⟨rfl, rfl⟩

/-- C9: in both dispatch handlers the configured-client check precedes
the blank-input check: with no client configured the "not configured"
error is set (even if the input is also blank) and nothing is
dispatched; with a client configured and blank input the "enter text"
error is set and nothing is dispatched.  In every rejection case the
state is changed only in its error message — in particular the loading
flag is never set — and no task is spawned. -/
theorem dispatch_rejection_order (a : App) :
    (a.geminiClient = none →
      update a Message.checkGrammar =
        ({ a with errorMessage := some a.language.strings.apiNotConfigured }, none) ∧
      update a Message.enhanceText =
        ({ a with errorMessage := some a.language.strings.apiNotConfigured }, none)) ∧
    (∀ k, a.geminiClient = some k →
      trimL a.inputContent.toList = [] →
      update a Message.checkGrammar =
        ({ a with errorMessage := some a.language.strings.enterTextCheck }, none) ∧
      update a Message.enhanceText =
        ({ a with errorMessage := some a.language.strings.enterTextEnhance }, none)) := by
  constructor
  · intro h
    constructor <;> simp [update, h]
  · intro k hk hb
    have hb' : trimL a.inputContent.data = [] := by simpa [String.toList] using hb
    constructor <;> simp [update, hk, hb']

/-- Witness for `dispatch_rejection_order`: an unconfigured app with
blank input gets the "not configured" error, and a configured app with
blank input gets the "enter text" error; neither dispatches. -/
theorem dispatch_rejection_order_witness :
    update { sampleApp with geminiClient := none, inputContent := "" }
        Message.checkGrammar =
      ({ sampleApp with
          geminiClient := none
          inputContent := ""
          errorMessage := some "API key not configured. Go to Settings." },
       none) ∧
    update { sampleApp with inputContent := " " } Message.checkGrammar =
      ({ sampleApp with
          inputContent := " "
          errorMessage := some "Please enter some text to check" }, none) :=
  ⟨((dispatch_rejection_order
      { sampleApp with geminiClient := none, inputContent := "" }).1 rfl).1,
   ((dispatch_rejection_order
      { sampleApp with inputContent := " " }).2 "KEY" rfl (by decide)).1⟩

end Akkurate
